import Mathlib

/-
Verification of the agent-coordination core: per-agent lifecycle supervision
(BaseAgent), the orchestration coordinator (OrchestraManager) and the temporal
knowledge graph (TemporalKnowledgeGraph).  Each definition is a shallow
embedding of the corresponding Python source; machine floats are modelled as
exact rationals, uuid generation as explicitly threaded fresh identifiers, and
the cooperative asyncio scheduling as deterministic state passing in which a
spawned task body runs when its handle is awaited.
-/

/- Rational arithmetic from core is marked irreducible; restore reducibility
locally so that concrete evaluations go through by decidability. -/
attribute [local semireducible] Rat.add Rat.inv Rat.mul Rat.sub Rat.ofScientific

/- ### Agent Lifecycle Supervisor: backend/agents/base_agent.py -/

/-- The four agent states of `models.agent.AgentState`. -/
inductive AgentState where
  | idle
  | running
  | completed
  | error
deriving DecidableEq, Repr

/-- One broadcast status update, as emitted by `BaseAgent._update_status`. -/
structure StatusUpdate where
  state : AgentState
  progress : Nat
  message : String
deriving DecidableEq, Repr

/-- The mutable state of one `BaseAgent` instance (base_agent.py, `__init__`).
The `log` field records the broadcast updates in order. -/
structure BAgent where
  agent_id : String
  state : AgentState
  progress : Nat
  current_message : String
  last_error : String
  current_task_id : Option String
  is_running : Bool
  should_stop : Bool
  log : List StatusUpdate
deriving DecidableEq, Repr

/-- `BaseAgent._update_status`: mutate local state, then broadcast the update
(the status-change hook swallows its own errors and does not touch this
state). -/
def BAgent.update_status (a : BAgent) (s : AgentState) (p : Nat) (msg : String) :
    BAgent :=
  { a with
    state := s
    progress := p
    current_message := msg
    log := a.log ++ [{ state := s, progress := p, message := msg }] }

/-- A task body (`_execute_task` of a concrete agent plus whatever cooperative
interleaving happens at its await points, including a `stop()` request flipping
`should_stop`).  It returns its outcome together with the agent state as it
stands when the body finishes or raises. -/
def ExecBody : Type := BAgent → Except String String × BAgent

/-- `BaseAgent.start` (base_agent.py lines 40-76).  `freshId` stands for the
`str(uuid.uuid4())` generated on acceptance.  The first component of the result
is the value returned to the caller (`Except.error` models the re-raised
exception); the second is the agent state at the moment `start` returns.  The
`finally` block is the unconditional clearing of `is_running` and
`current_task_id` on every exit path. -/
def BAgent.start (exec : ExecBody) (freshId : String) (task_type : String)
    (a : BAgent) : Except String (Option String) × BAgent :=
  if a.is_running then
    (Except.error ("Agent " ++ a.agent_id ++ " is already running"), a)
  else
    let a1 := { a with
      current_task_id := some freshId
      is_running := true
      should_stop := false }
    let a2 := a1.update_status AgentState.running 0 ("Starting " ++ task_type)
    match exec a2 with
    | (Except.ok _result, a3) =>
      let a4 :=
        if a3.should_stop = false then
          a3.update_status AgentState.completed 100 "Task completed successfully"
        else
          a3.update_status AgentState.idle 0 "Task stopped by user"
      let ret := a4.current_task_id
      (Except.ok ret, { a4 with is_running := false, current_task_id := none })
    | (Except.error e, a3) =>
      let error_msg := "Task failed: " ++ e
      let a4 := { a3 with last_error := error_msg }
      let a5 := a4.update_status AgentState.error a4.progress error_msg
      (Except.error e, { a5 with is_running := false, current_task_id := none })

/-- A concrete idle agent used by the closed witness statements. -/
def idleAgent : BAgent :=
  { agent_id := "a1"
    state := AgentState.idle
    progress := 0
    current_message := ""
    last_error := ""
    current_task_id := none
    is_running := false
    should_stop := false
    log := [] }

/-- A concrete task body that completes normally without touching the task
bookkeeping fields. -/
def okBody : ExecBody := fun b => (Except.ok "done", b)

/- ### Temporal Knowledge Graph: backend/orchestra/temporal/knowledge_graph.py
     and backend/orchestra/temporal/models.py -/

/-- A persisted temporal event (models.py `TemporalEvent`).  Timestamps are
epoch seconds; the opaque JSON payload is an uninterpreted string. -/
structure TemporalEventR where
  event_type : String
  agent_id : String
  project_id : Option String
  payload : String
  timestamp : Nat
deriving DecidableEq, Repr

/-- A knowledge-graph node (models.py `KnowledgeNode`).  The uuid primary key
is modelled as a Nat drawn from the fresh-id counter of the store. -/
structure KnowledgeNodeR where
  id : Nat
  node_type : String
  entity_id : String
  entity_name : String
deriving DecidableEq, Repr

/-- A knowledge-graph edge (models.py `KnowledgeEdge`): float columns are
exact rationals, `weight` and `confidence` default to 1.0 and
`interaction_count` to 1. -/
structure KnowledgeEdgeR where
  from_node_id : Nat
  to_node_id : Nat
  relationship_type : String
  weight : ℚ
  confidence : ℚ
  interaction_count : Nat
  last_interaction : Nat
deriving DecidableEq, Repr

/-- Pattern payload dictionaries built by `_detect_temporal_patterns`. -/
inductive PatternData where
  | hourly (peak_hour : Nat) (peak_activity : Nat) (average_activity : ℚ)
  | daily (peak_day : String) (peak_activity : Nat) (average_daily : ℚ)
  | other (tag : String)
deriving DecidableEq, Repr

/-- A detected pattern (the dictionaries produced by the detectors and
persisted via `_store_pattern` into `PatternAnalysis` rows). -/
structure PatternR where
  pattern_type : String
  pattern_name : String
  confidence_score : ℚ
  pattern_data : PatternData
deriving DecidableEq, Repr

/-- The state of a `TemporalKnowledgeGraph`: the append-only event log, the
node and edge tables, the persisted patterns, and the fresh-id counter that
stands for uuid generation of node primary keys. -/
structure GraphStore where
  events : List TemporalEventR
  nodes : List KnowledgeNodeR
  edges : List KnowledgeEdgeR
  patterns : List PatternR
  nextId : Nat
deriving DecidableEq, Repr

/-- The Python builtin `min(a, b)` on two rationals, written so that it
evaluates by computation: the second argument is returned exactly when it is
strictly smaller. -/
def pyMin (a b : ℚ) : ℚ := if Rat.blt b a then b else a

/-- Key match used by the `_ensure_edge` query:
(`from_node_id`, `to_node_id`, `relationship_type`). -/
def edgeKeyMatch (f t : Nat) (rel : String) (e : KnowledgeEdgeR) : Bool :=
  e.from_node_id == f && e.to_node_id == t && e.relationship_type == rel

/-- `_ensure_edge` (knowledge_graph.py lines 460-511) acting on the edge
table: the first row matching the key is strengthened
(`interaction_count += 1`, `weight = min(weight + 0.1, 2.0)`,
`last_interaction = utcnow`); if none matches, a new row with the given
weight, confidence 1.0 and interaction_count 1 is inserted. -/
def ensure_edge (now : Nat) (f t : Nat) (rel : String) (w : ℚ) :
    List KnowledgeEdgeR → List KnowledgeEdgeR
  | [] =>
    [{ from_node_id := f
       to_node_id := t
       relationship_type := rel
       weight := w
       confidence := 1
       interaction_count := 1
       last_interaction := now }]
  | e :: es =>
    if edgeKeyMatch f t rel e then
      { e with
        interaction_count := e.interaction_count + 1
        last_interaction := now
        weight := pyMin (e.weight + 1/10) 2 } :: es
    else
      e :: ensure_edge now f t rel w es

/-- Key match used by the `_ensure_node` query: (`node_type`, `entity_id`). -/
def nodeKeyMatch (ty eid : String) (n : KnowledgeNodeR) : Bool :=
  n.node_type == ty && n.entity_id == eid

/-- `_ensure_node` (knowledge_graph.py lines 416-458): return the id of the
first node matching (`node_type`, `entity_id`), creating the node with a fresh
id when absent. -/
def ensure_node (ty eid ename : String) (st : GraphStore) : Nat × GraphStore :=
  match st.nodes.find? (nodeKeyMatch ty eid) with
  | some n => (n.id, st)
  | none =>
    (st.nextId,
     { st with
       nodes := st.nodes ++
         [{ id := st.nextId, node_type := ty, entity_id := eid,
            entity_name := ename }]
       nextId := st.nextId + 1 })

/-- `store_agent_event` (knowledge_graph.py lines 61-89) followed by
`_update_graph_with_event` (lines 393-414): append the event, upsert the agent
node, and when a project id is present upsert the project node and the
`works_on` edge between them with initial weight 1.0.  The trailing
`_update_node_analytics` call has no body in the source; its failed attribute
lookup is swallowed by the surrounding handler and leaves the store
unchanged. -/
def store_agent_event (now : Nat) (agent_id event_type payload : String)
    (project_id : Option String) (st : GraphStore) : GraphStore :=
  let ev : TemporalEventR :=
    { event_type := event_type
      agent_id := agent_id
      project_id := project_id
      payload := payload
      timestamp := now }
  let st1 := { st with events := st.events ++ [ev] }
  let (agent_node_id, st2) :=
    ensure_node "agent" agent_id ("Agent " ++ agent_id) st1
  match project_id with
  | some p =>
    let (project_node_id, st3) := ensure_node "project" p ("Project " ++ p) st2
    { st3 with
      edges := ensure_edge now agent_node_id project_node_id "works_on" 1
        st3.edges }
  | none => st2

/-- The id of the node registered for (`node_type`, `entity_id`), if any. -/
def nodeIdOf (st : GraphStore) (ty eid : String) : Option Nat :=
  (st.nodes.find? (nodeKeyMatch ty eid)).map (fun n => n.id)

/-- The `works_on` edges currently recorded between an agent entity and a
project entity (empty when either node is absent). -/
def worksOnBetween (st : GraphStore) (agent_id project_id : String) :
    List KnowledgeEdgeR :=
  match nodeIdOf st "agent" agent_id, nodeIdOf st "project" project_id with
  | some i, some j => st.edges.filter (edgeKeyMatch i j "works_on")
  | _, _ => []

/-- Well-formedness of the fresh-id counter: every id already used by a node
or referenced by an edge is below `nextId`. -/
def IdsFresh (st : GraphStore) : Prop :=
  (∀ n ∈ st.nodes, n.id < st.nextId) ∧
  (∀ e ∈ st.edges, e.from_node_id < st.nextId ∧ e.to_node_id < st.nextId)

/-- Hour-of-day of an epoch-seconds timestamp (`event.timestamp.hour`). -/
def hourOf (ts : Nat) : Nat := ts / 3600 % 24

/-- Day-of-week name of an epoch-seconds timestamp
(`event.timestamp.strftime("%A")`); epoch day zero was a Thursday. -/
def dayNameOf (ts : Nat) : String :=
  match ts / 86400 % 7 with
  | 0 => "Thursday"
  | 1 => "Friday"
  | 2 => "Saturday"
  | 3 => "Sunday"
  | 4 => "Monday"
  | 5 => "Tuesday"
  | _ => "Wednesday"

/-- Increment the counter for a key in an association list, preserving the
Python-dict property that keys appear in first-insertion order. -/
def bumpKey {α : Type} [BEq α] (k : α) : List (α × Nat) → List (α × Nat)
  | [] => [(k, 1)]
  | (k1, c) :: rest =>
    if k1 == k then (k1, c + 1) :: rest else (k1, c) :: bumpKey k rest

/-- The `hourly_activity` dictionary of `_detect_temporal_patterns`. -/
def hourlyActivity (evs : List TemporalEventR) : List (Nat × Nat) :=
  evs.foldl (fun d e => bumpKey (hourOf e.timestamp) d) []

/-- The `daily_activity` dictionary of `_detect_temporal_patterns`. -/
def dailyActivity (evs : List TemporalEventR) : List (String × Nat) :=
  evs.foldl (fun d e => bumpKey (dayNameOf e.timestamp) d) []

/-- The Python builtin `max(items, key=lambda x: x[1])` over dict items: the first entry
with the maximal count, `none` on an empty dictionary. -/
def firstMaxByCount {α : Type} : List (α × Nat) → Option (α × Nat)
  | [] => none
  | x :: xs => some (xs.foldl (fun best y => if y.2 > best.2 then y else best) x)

/-- Mean bucket count (`sum(values()) / len(dict)`), as an exact rational. -/
def meanCount {α : Type} (d : List (α × Nat)) : ℚ :=
  ((d.map (fun x => x.2)).sum : ℚ) / (d.length : ℚ)

/-- Insert an event into a timestamp-sorted list, keeping earlier-listed
events first among equal timestamps. -/
def insertByTimestamp (e : TemporalEventR) :
    List TemporalEventR → List TemporalEventR
  | [] => [e]
  | x :: xs =>
    if e.timestamp ≤ x.timestamp then e :: x :: xs
    else x :: insertByTimestamp e xs

/-- The `ORDER BY timestamp` of the event queries (a stable sort). -/
def orderByTimestamp (l : List TemporalEventR) : List TemporalEventR :=
  l.foldr insertByTimestamp []

/-- The events fetched by `_detect_temporal_patterns`: every stored event with
`timestamp >= now - lookback_days` (the query has no upper bound), ordered by
timestamp. -/
def lookbackEvents (now lookback_days : Nat) (evs : List TemporalEventR) :
    List TemporalEventR :=
  orderByTimestamp (evs.filter
    (fun e => decide ((now : ℤ) - (lookback_days : ℤ) * 86400 ≤ (e.timestamp : ℤ))))

/-- `_detect_temporal_patterns` (knowledge_graph.py lines 513-587): flag the
peak hour when its count exceeds 1.5 times the mean hourly count, then the
peak day-of-week when its count exceeds 1.3 times the mean daily count. -/
def detect_temporal_patterns (now lookback_days : Nat)
    (evs : List TemporalEventR) : List PatternR :=
  let events := lookbackEvents now lookback_days evs
  let hourly := hourlyActivity events
  let hourlyPatterns :=
    match firstMaxByCount hourly with
    | none => []
    | some peak =>
      let avg := meanCount hourly
      if (peak.2 : ℚ) > avg * (3/2) then
        [{ pattern_type := "temporal_peak"
           pattern_name := "Peak activity at hour " ++ toString peak.1
           confidence_score := 4/5
           pattern_data := PatternData.hourly peak.1 peak.2 avg }]
      else []
  let daily := dailyActivity events
  let dailyPatterns :=
    match firstMaxByCount daily with
    | none => []
    | some peak =>
      let avg := meanCount daily
      if (peak.2 : ℚ) > avg * (13/10) then
        [{ pattern_type := "daily_peak"
           pattern_name := "High activity on " ++ peak.1
           confidence_score := 3/4
           pattern_data := PatternData.daily peak.1 peak.2 avg }]
      else []
  hourlyPatterns ++ dailyPatterns

/-- Modelled from the spec: `_store_pattern` has no body under src (the file
ends with a placeholder comment); the spec requires every detected pattern to
be persisted, so storing appends the pattern to the persisted pattern table. -/
def store_pattern (p : PatternR) (st : GraphStore) : GraphStore :=
  { st with patterns := st.patterns ++ [p] }

/-- `detect_patterns` (knowledge_graph.py lines 146-168): union the results of
the independent detectors, persist every one of them, and return the list.
Modelled from the spec: `_detect_collaboration_patterns`,
`_detect_performance_patterns` and `_detect_anomalies` have no bodies under
src; the spec says they follow the same bucket-and-threshold shape, so their
outputs are taken as opaque pattern-list inputs. -/
def detect_patterns (now lookback_days : Nat)
    (collabPatterns perfPatterns anomalyPatterns : List PatternR)
    (st : GraphStore) : List PatternR × GraphStore :=
  let patterns :=
    detect_temporal_patterns now lookback_days st.events ++
      collabPatterns ++ perfPatterns ++ anomalyPatterns
  (patterns, patterns.foldl (fun s p => store_pattern p s) st)

/-- Modelled from the spec: `_get_node_context` has no body under src; the
spec says it fetches the graph neighborhood of the matching node, so it is
the nodes adjacent to the node of the entity together with its incident edges (a
pure read). -/
def get_node_context (st : GraphStore) (entity_id entity_type : String) :
    List KnowledgeNodeR × List KnowledgeEdgeR :=
  match nodeIdOf st entity_type entity_id with
  | none => ([], [])
  | some i =>
    (st.nodes.filter (fun n =>
        n.id == i || st.edges.any (fun e =>
          (e.from_node_id == i && e.to_node_id == n.id) ||
            (e.to_node_id == i && e.from_node_id == n.id))),
     st.edges.filter (fun e => e.from_node_id == i || e.to_node_id == i))

/-- The lightweight temporal-sequence summary: event count and the gaps in
seconds between consecutive fetched events.  Modelled from the spec:
`_analyze_temporal_sequence` has no body under src; the spec says it computes
counts and inter-event gaps over the fetched events (a pure read). -/
def analyze_temporal_sequence (evs : List TemporalEventR) : Nat × List ℤ :=
  (evs.length,
   (evs.zip evs.tail).map (fun p => (p.2.timestamp : ℤ) - (p.1.timestamp : ℤ)))

/-- The context dictionary returned by `query_temporal_context`. -/
structure TemporalContext where
  entity_id : String
  entity_type : String
  context_window_hours : Nat
  events_count : Nat
  events : List TemporalEventR
  node_context : List KnowledgeNodeR × List KnowledgeEdgeR
  temporal_analysis : Nat × List ℤ
deriving DecidableEq, Repr

/-- `query_temporal_context` (knowledge_graph.py lines 170-215): fetch every
stored event whose `agent_id` or `project_id` equals the entity id and whose
timestamp lies in `[now - context_window_hours, now]`, ordered by timestamp,
attach the node context and the sequence summary, and leave the store
untouched. -/
def query_temporal_context (now : Nat) (entity_id entity_type : String)
    (context_window_hours : Nat) (st : GraphStore) :
    TemporalContext × GraphStore :=
  let events := orderByTimestamp (st.events.filter (fun e =>
    (e.agent_id == entity_id || e.project_id == some entity_id) &&
      decide ((now : ℤ) - (context_window_hours : ℤ) * 3600 ≤ (e.timestamp : ℤ)) &&
      decide ((e.timestamp : ℤ) ≤ (now : ℤ))))
  ({ entity_id := entity_id
     entity_type := entity_type
     context_window_hours := context_window_hours
     events_count := events.length
     events := events
     node_context := get_node_context st entity_id entity_type
     temporal_analysis := analyze_temporal_sequence events }, st)

/-- The `results` dictionary assembled step by step inside
`consolidate_daily_data`; a field is `none` while its key has not yet been
written. -/
structure ConsolidationResults where
  graph_metrics : Option String
  insights : Option (List String)
  cleanup : Option String
deriving DecidableEq, Repr

/-- The `ConsolidationCycle` audit row (models.py lines 300-353), restricted
to the columns `consolidate_daily_data` writes. -/
structure CycleRow where
  cycle_type : String
  status : String
  error_message : Option String
  patterns_detected : Nat
  data_quality_score : Option ℚ
  insights_generated : Nat
  consolidation_results : Option ConsolidationResults
  completed_at : Option Nat
  processing_time_seconds : Option ℤ
deriving DecidableEq, Repr

/-- The failure marking of the `except` branch of `consolidate_daily_data`:
status `failed` plus the captured error text. -/
def markCycleFailed (c : CycleRow) (e : String) : CycleRow :=
  { c with status := "failed", error_message := some e }

/-- `consolidate_daily_data` (knowledge_graph.py lines 297-356): insert a
`running` audit row, run the maintenance steps in order while filling the row
and the results dictionary, then mark the row `completed` with timing and the
results blob; any step failure marks the row `failed` with the captured error
and re-raises.  Modelled from the spec: `_assess_data_quality`,
`_update_graph_analytics`, `_generate_daily_insights` and `_cleanup_old_data`
have no bodies under src, so the outcome of each step is an opaque
success-or-failure input (`detect_patterns` itself never raises: it catches
internally). -/
def consolidate_daily_data (startNow endNow : Nat)
    (collabPatterns perfPatterns anomalyPatterns : List PatternR)
    (assessQuality : Except String ℚ)
    (graphAnalytics : Except String String)
    (dailyInsights : Except String (List String))
    (cleanupOld : Except String String)
    (st : GraphStore) :
    Except String ConsolidationResults × CycleRow × GraphStore :=
  let cycle0 : CycleRow :=
    { cycle_type := "daily"
      status := "running"
      error_message := none
      patterns_detected := 0
      data_quality_score := none
      insights_generated := 0
      consolidation_results := none
      completed_at := none
      processing_time_seconds := none }
  let (patterns, st1) := detect_patterns startNow 1
    collabPatterns perfPatterns anomalyPatterns st
  let cycle1 := { cycle0 with patterns_detected := patterns.length }
  match assessQuality with
  | Except.error e => (Except.error e, markCycleFailed cycle1 e, st1)
  | Except.ok quality =>
    let cycle2 := { cycle1 with data_quality_score := some quality }
    match graphAnalytics with
    | Except.error e => (Except.error e, markCycleFailed cycle2 e, st1)
    | Except.ok metrics =>
      let results1 : ConsolidationResults :=
        { graph_metrics := some metrics, insights := none, cleanup := none }
      match dailyInsights with
      | Except.error e => (Except.error e, markCycleFailed cycle2 e, st1)
      | Except.ok insights =>
        let cycle3 := { cycle2 with insights_generated := insights.length }
        let results2 := { results1 with insights := some insights }
        match cleanupOld with
        | Except.error e => (Except.error e, markCycleFailed cycle3 e, st1)
        | Except.ok cleanupRes =>
          let results3 := { results2 with cleanup := some cleanupRes }
          let cycleDone := { cycle3 with
            status := "completed"
            completed_at := some endNow
            processing_time_seconds := some ((endNow : ℤ) - (startNow : ℤ))
            consolidation_results := some results3 }
          (Except.ok results3, cycleDone, st1)

/- ### Orchestration Coordinator: backend/orchestra/orchestra_manager.py -/

/-- An Orchestra agent instance held in `active_agents` (the supervisor
created by `_create_orchestra_agent`). -/
structure OrchAgentR where
  name : String
  status : String
deriving DecidableEq, Repr

/-- One entry of the observable event log of the coordinator: websocket
broadcasts, knowledge-graph agent events (`store_agent_event`) and task
results (`store_task_result`). -/
inductive MgrEv where
  | broadcast (agentId status : String) (progress : Nat) (message : String)
  | kgAgentEvent (agentId event_type : String)
  | kgTaskResult (agentId task_type : String)
deriving DecidableEq, Repr

/-- A background task handle held in `agent_tasks`; `done` records whether the
handle has settled. -/
structure TaskHandle where
  agent_id : String
  task_type : String
  done : Bool
deriving DecidableEq, Repr

/-- The coordinator state: the two bookkeeping dicts plus the observable event
log. -/
structure MgrState where
  active_agents : List (String × OrchAgentR)
  agent_tasks : List (String × TaskHandle)
  log : List MgrEv
deriving DecidableEq, Repr

/-- Python dict assignment `d[k] = v`: overwrite the entry in place if the key
exists, otherwise append. -/
def dictSet {β : Type} (k : String) (v : β) :
    List (String × β) → List (String × β)
  | [] => [(k, v)]
  | (k1, v1) :: rest =>
    if k1 == k then (k1, v) :: rest else (k1, v1) :: dictSet k v rest

/-- Python dict lookup `d.get(k)`. -/
def dictGet {β : Type} (k : String) (d : List (String × β)) : Option β :=
  (d.find? (fun p => p.1 == k)).map (fun p => p.2)

/-- `OrchestraManager.start_agent` (orchestra_manager.py lines 86-136): create
the supervisor, register it under the agent id, spawn the background task and
record its handle, broadcast a running update and record a `start` event in
the knowledge graph.  The source performs no already-running check; a
pre-existing entry for the id is simply overwritten.  The background task body
does not run here: under the embedded cooperative schedule it runs when its
handle is awaited. -/
def start_agent (agent_id agent_type task_type : String) (st : MgrState) :
    Except String String × MgrState :=
  let agent : OrchAgentR := { name := agent_type ++ "_" ++ agent_id, status := "idle" }
  let st1 := { st with active_agents := dictSet agent_id agent st.active_agents }
  let handle : TaskHandle :=
    { agent_id := agent_id, task_type := task_type, done := false }
  let st2 := { st1 with agent_tasks := dictSet agent_id handle st1.agent_tasks }
  let st3 := { st2 with log := st2.log ++
    [MgrEv.broadcast agent_id "running" 0
      ("Started " ++ agent_type ++ " agent with task: " ++ task_type),
     MgrEv.kgAgentEvent agent_id "start"] }
  (Except.ok ("Agent " ++ agent_id ++ " started with task " ++ task_type), st3)

/-- The outcome of `orchestra_agent.execute_task` for a given agent id and
task type (the mock always completes; a concrete agent may raise). -/
def TaskExec : Type := String → String → Except String String

/-- The events emitted by `_run_agent_task` (orchestra_manager.py lines
263-327): a 25% progress broadcast, then on success a completion broadcast
plus the stored task result, or on failure an error broadcast plus a stored
`error` event. -/
def run_agent_task_trace (execRes : TaskExec) (agent_id task_type : String) :
    List MgrEv :=
  MgrEv.broadcast agent_id "running" 25 ("Executing " ++ task_type ++ " task") ::
    match execRes agent_id task_type with
    | Except.ok _ =>
      [MgrEv.broadcast agent_id "completed" 100
        ("Task " ++ task_type ++ " completed successfully"),
       MgrEv.kgTaskResult agent_id task_type]
    | Except.error e =>
      [MgrEv.broadcast agent_id "error" 0
        ("Task " ++ task_type ++ " failed: " ++ e),
       MgrEv.kgAgentEvent agent_id "error"]

/-- Awaiting `agent_tasks[agent_id]`: if an unsettled handle exists, its task
body runs to completion here (cooperative schedule) and the handle settles. -/
def await_task (execRes : TaskExec) (agent_id : String) (st : MgrState) :
    MgrState :=
  match dictGet agent_id st.agent_tasks with
  | none => st
  | some h =>
    if h.done then st
    else
      { st with
        agent_tasks := dictSet agent_id { h with done := true } st.agent_tasks
        log := st.log ++ run_agent_task_trace execRes agent_id h.task_type }

/-- One agent specification of an orchestration plan. -/
structure AgentSpec where
  agent_id : String
  agent_type : String
  task_type : String
deriving DecidableEq, Repr

/-- `_orchestrate_sequential` (orchestra_manager.py lines 348-362): for each
spec in order, call `start_agent`, then await the background task of that agent
handle before moving to the next spec. -/
def orchestrate_sequential (execRes : TaskExec) (specs : List AgentSpec)
    (st : MgrState) : MgrState :=
  specs.foldl
    (fun s spec =>
      await_task execRes spec.agent_id
        (start_agent spec.agent_id spec.agent_type spec.task_type s).2)
    st

/-- The terminal log event of the task body of an agent: the stored task result on
success, the stored `error` event on failure. -/
def terminalEv (execRes : TaskExec) (spec : AgentSpec) : MgrEv :=
  match execRes spec.agent_id spec.task_type with
  | Except.ok _ => MgrEv.kgTaskResult spec.agent_id spec.task_type
  | Except.error _ => MgrEv.kgAgentEvent spec.agent_id "error"

/-- A concrete coordinator state in which agent `a1` already has a live
supervisor and an unsettled background task. -/
def liveA1State : MgrState :=
  { active_agents := [("a1", { name := "procore_a1", status := "idle" })]
    agent_tasks := [("a1", { agent_id := "a1", task_type := "t1", done := false })]
    log := [] }

/- ### Concrete fixtures and derived notions used by the statements -/

/-- Lookup of an edge row by its (`from`, `to`, `relationship_type`) key. -/
def lookupEdge (f t : Nat) (rel : String) (l : List KnowledgeEdgeR) :
    Option KnowledgeEdgeR :=
  l.find? (edgeKeyMatch f t rel)

/-- Timestamp ordering of events. -/
def tsLE (a b : TemporalEventR) : Prop := a.timestamp ≤ b.timestamp

/-- A task-execution event fixture. -/
def mkEvent (aid : String) (pid : Option String) (ts : Nat) : TemporalEventR :=
  { event_type := "task_execution"
    agent_id := aid
    project_id := pid
    payload := ""
    timestamp := ts }

/-- The freshly initialized empty store. -/
def emptyStore : GraphStore :=
  { events := [], nodes := [], edges := [], patterns := [], nextId := 0 }

/-- A store whose events concentrate in hour 0 and on Thursday: six events in
hour 0 against one in hour 1, six on Thursday against one on Friday. -/
def peakStore : GraphStore :=
  { emptyStore with events :=
      [mkEvent "a" none 0, mkEvent "a" none 1, mkEvent "a" none 2,
       mkEvent "a" none 3, mkEvent "a" none 4, mkEvent "a" none 3600,
       mkEvent "a" none 86400] }

/-- The example scenario of the spec: three stored events for project
`proj-9` at one, ten and thirty hours before a reference time of 200000. -/
def proj9Store : GraphStore :=
  { emptyStore with events :=
      [mkEvent "agentA" (some "proj-9") 196400,
       mkEvent "agentB" (some "proj-9") 164000,
       mkEvent "agentC" (some "proj-9") 92000] }

/-- A concrete agent with a live task, used to exercise the rejection path. -/
def busyAgent : BAgent :=
  { idleAgent with
    is_running := true
    state := AgentState.running
    progress := 42
    current_message := "working"
    current_task_id := some "tid-0" }

/-- The two log events `start_agent` emits for a spec: the running broadcast
and the stored `start` knowledge-graph event. -/
def specStartEvents (spec : AgentSpec) : List MgrEv :=
  [MgrEv.broadcast spec.agent_id "running" 0
    ("Started " ++ spec.agent_type ++ " agent with task: " ++ spec.task_type),
   MgrEv.kgAgentEvent spec.agent_id "start"]

/-- The full log contribution of one sequential step: the start events
followed by the events of the task body run to settlement. -/
def specTrace (execRes : TaskExec) (spec : AgentSpec) : List MgrEv :=
  specStartEvents spec ++
    run_agent_task_trace execRes spec.agent_id spec.task_type


/-- A freshly created `works_on` edge row between node ids 0 and 1. -/
def seedEdge : KnowledgeEdgeR :=
  { from_node_id := 0
    to_node_id := 1
    relationship_type := "works_on"
    weight := 1
    confidence := 1
    interaction_count := 1
    last_interaction := 0 }

/- ### Theorems -/

/-- A lower bound of both arguments is a lower bound of `pyMin`. -/
theorem le_pyMin {c a b : ℚ} (h1 : c ≤ a) (h2 : c ≤ b) : c ≤ pyMin a b := by
  unfold pyMin
  split
  · exact h2
  · exact h1

/-- `pyMin` never exceeds its second argument. -/
theorem pyMin_le_right (a b : ℚ) : pyMin a b ≤ b := by
  unfold pyMin
  split
  · exact le_refl b
  · rename_i h
    show Rat.blt b a = false
    exact Bool.eq_false_iff.mpr h

/-- C2: for every accepted invocation of `BaseAgent.start` (the agent was not
already running), whatever the task body does — complete normally, observe a
stop request, or raise — the running flag is false and `current_task_id` is
empty in the agent state at the moment `start` returns, including when the
exception of the task body is re-raised. -/
theorem start_always_clears_running_and_task_id (exec : ExecBody)
    (freshId task_type : String) (a : BAgent) (h : a.is_running = false) :
    (BAgent.start exec freshId task_type a).2.is_running = false ∧
      (BAgent.start exec freshId task_type a).2.current_task_id = none := by
  unfold BAgent.start
  rw [h]
  simp only [Bool.false_eq_true, if_false]
  split
  · split
    · exact ⟨rfl, rfl⟩
    · exact ⟨rfl, rfl⟩
  · exact ⟨rfl, rfl⟩

theorem start_always_clears_running_and_task_id_witness :
    idleAgent.is_running = false ∧
      (BAgent.start okBody "tid-1" "demo_task" idleAgent).2.is_running = false ∧
      (BAgent.start okBody "tid-1" "demo_task" idleAgent).2.current_task_id =
        none :=
  ⟨rfl, start_always_clears_running_and_task_id okBody "tid-1" "demo_task"
    idleAgent rfl⟩

/-- C8: calling `BaseAgent.start` while the running flag is set raises the
already-running error and returns the agent state completely unchanged — task
id, state, progress, message and running flag of the live task are
untouched. -/
theorem start_already_running_rejected_unchanged (exec : ExecBody)
    (freshId task_type : String) (a : BAgent) (h : a.is_running = true) :
    BAgent.start exec freshId task_type a =
      (Except.error ("Agent " ++ a.agent_id ++ " is already running"), a) := by
  unfold BAgent.start
  rw [h]
  simp

theorem start_already_running_rejected_unchanged_witness :
    busyAgent.is_running = true ∧
      BAgent.start okBody "tid-9" "demo_task" busyAgent =
        (Except.error "Agent a1 is already running", busyAgent) :=
  ⟨rfl, start_already_running_rejected_unchanged okBody "tid-9" "demo_task"
    busyAgent rfl⟩


/-- Status updates never touch the task-id field. -/
theorem update_status_task_id (a : BAgent) (s : AgentState) (p : Nat)
    (m : String) : (BAgent.update_status a s p m).current_task_id =
      a.current_task_id := rfl

/-- C10: whenever an accepted `BaseAgent.start` call returns without raising,
and the task body leaves `current_task_id` alone (no task body in the source
touches it), the value handed back to the caller is exactly the non-empty
fresh task id generated at the beginning of the call — computed before the
finalizer, which has already emptied the `current_task_id` field by the time
`start` returns. -/
theorem start_returns_fresh_task_id (exec : ExecBody)
    (freshId task_type : String) (a : BAgent)
    (hrun : a.is_running = false)
    (hpres : ∀ b, ((exec b).2).current_task_id = b.current_task_id)
    (hne : freshId ≠ "") :
    (∀ v, (BAgent.start exec freshId task_type a).1 = Except.ok v →
      v = some freshId ∧ v ≠ none ∧ freshId ≠ "") ∧
      (BAgent.start exec freshId task_type a).2.current_task_id = none := by
  constructor
  · intro v hv
    unfold BAgent.start at hv
    rw [hrun] at hv
    simp only [Bool.false_eq_true, if_false] at hv
    split at hv
    · rename_i r a3 heq
      have h3 : a3.current_task_id = some freshId := by
        have h5 := hpres (BAgent.update_status { a with current_task_id := some freshId, is_running := true, should_stop := false } AgentState.running 0 ("Starting " ++ task_type))
        rw [heq] at h5
        exact h5
      simp only [Except.ok.injEq] at hv
      have h4 : (if a3.should_stop = false then
          BAgent.update_status a3 AgentState.completed 100
            "Task completed successfully"
        else
          BAgent.update_status a3 AgentState.idle 0
            "Task stopped by user").current_task_id = some freshId := by
        split
        · exact h3
        · exact h3
      have h6 : v = some freshId := hv.symm.trans h4
      exact ⟨h6, by rw [h6]; exact Option.some_ne_none freshId, hne⟩
    · simp at hv
  · unfold BAgent.start
    rw [hrun]
    simp only [Bool.false_eq_true, if_false]
    split
    · split
      · rfl
      · rfl
    · rfl

theorem start_returns_fresh_task_id_witness :
    idleAgent.is_running = false ∧
      (∀ b, ((okBody b).2).current_task_id = b.current_task_id) ∧
      ("tid-1" : String) ≠ "" ∧
      ((∀ v, (BAgent.start okBody "tid-1" "demo_task" idleAgent).1 =
          Except.ok v → v = some "tid-1" ∧ v ≠ none ∧
            ("tid-1" : String) ≠ "") ∧
        (BAgent.start okBody "tid-1" "demo_task"
          idleAgent).2.current_task_id = none) :=
  ⟨rfl, fun _ => rfl, by decide,
    start_returns_fresh_task_id okBody "tid-1" "demo_task" idleAgent rfl
      (fun _ => rfl) (by decide)⟩

/-- Looking up the key just written by a dict assignment yields the new
value. -/
theorem dictGet_dictSet_self {β : Type} (k : String) (v : β)
    (d : List (String × β)) : dictGet k (dictSet k v d) = some v := by
  induction d with
  | nil => simp [dictGet, dictSet, List.find?]
  | cons p rest ih =>
    obtain ⟨k1, v1⟩ := p
    by_cases hk : (k1 == k) = true
    · simp [dictSet, hk, dictGet, List.find?]
    · simp only [dictSet, hk, Bool.false_eq_true, if_false]
      simp only [dictGet, List.find?] at ih ⊢
      simp only [hk]
      exact ih

/-- A dict assignment either leaves the key sequence unchanged (overwrite) or
appends the fresh key at the end. -/
theorem dictSet_keys_cases {β : Type} (k : String) (v : β)
    (d : List (String × β)) :
    (dictSet k v d).map Prod.fst = d.map Prod.fst ∨
      ((dictSet k v d).map Prod.fst = d.map Prod.fst ++ [k] ∧
        k ∉ d.map Prod.fst) := by
  induction d with
  | nil => right; simp [dictSet]
  | cons p rest ih =>
    obtain ⟨k1, v1⟩ := p
    by_cases hk : (k1 == k) = true
    · left; simp [dictSet, hk]
    · rcases ih with h | ⟨h, hmem⟩
      · left; simp [dictSet, hk, Bool.false_eq_true, if_false, h]
      · right
        constructor
        · simp [dictSet, hk, Bool.false_eq_true, if_false, h]
        · simp only [List.map_cons, List.mem_cons]
          rintro (rfl | hin)
          · exact hk (by simp)
          · exact hmem hin

/-- Dict assignment preserves distinctness of keys: the map still holds at
most one entry per key. -/
theorem dictSet_keys_nodup {β : Type} (k : String) (v : β)
    (d : List (String × β)) (h : (d.map Prod.fst).Nodup) :
    ((dictSet k v d).map Prod.fst).Nodup := by
  rcases dictSet_keys_cases k v d with heq | ⟨heq, hmem⟩
  · rw [heq]; exact h
  · rw [heq]
    refine List.Nodup.append h (List.nodup_singleton k) ?_
    intro a ha hb
    simp only [List.mem_singleton] at hb
    subst hb
    exact hmem ha

/-- C1 counterexample: in a coordinator state where agent id `a1` already has
a live supervisor and an unsettled background task, `start_agent` for `a1`
does not fail with an already-running error — it succeeds and registers a
second (replacement) supervisor, contradicting the claim that such a call
fails with `AlreadyRunning`. -/
theorem start_agent_no_already_running_check :
    (dictGet "a1" liveA1State.active_agents).isSome = true ∧
      (dictGet "a1" liveA1State.agent_tasks).isSome = true ∧
      (start_agent "a1" "demo" "t2" liveA1State).1 =
        Except.ok "Agent a1 started with task t2" ∧
      dictGet "a1" (start_agent "a1" "demo" "t2" liveA1State).2.active_agents =
        some { name := "demo_a1", status := "idle" } := by
  refine ⟨rfl, rfl, rfl, rfl⟩

/-- C1 amended: `start_agent` performs no already-running check.  For every
state — live supervisor for the id or not — the call succeeds, and the two
bookkeeping dicts afterwards map the agent id to the freshly built supervisor
and to a fresh unsettled task handle; since dict assignment overwrites in
place, the coordinator registry still holds at most one supervisor entry per
agent id (the previous supervisor and task handle are simply dropped from the
bookkeeping, without being stopped). -/
theorem start_agent_always_accepts_and_replaces
    (agent_id agent_type task_type : String) (st : MgrState) :
    (start_agent agent_id agent_type task_type st).1 =
      Except.ok ("Agent " ++ agent_id ++ " started with task " ++ task_type) ∧
      dictGet agent_id
          (start_agent agent_id agent_type task_type st).2.active_agents =
        some { name := agent_type ++ "_" ++ agent_id, status := "idle" } ∧
      dictGet agent_id
          (start_agent agent_id agent_type task_type st).2.agent_tasks =
        some { agent_id := agent_id, task_type := task_type, done := false } ∧
      ((st.active_agents.map Prod.fst).Nodup →
        ((start_agent agent_id agent_type task_type
            st).2.active_agents.map Prod.fst).Nodup) := by
  refine ⟨rfl, ?_, ?_, ?_⟩
  · exact dictGet_dictSet_self agent_id _ st.active_agents
  · exact dictGet_dictSet_self agent_id _ st.agent_tasks
  · intro h
    exact dictSet_keys_nodup agent_id _ st.active_agents h

theorem start_agent_always_accepts_and_replaces_witness :
    (liveA1State.active_agents.map Prod.fst).Nodup ∧
      ((start_agent "a1" "demo" "t2" liveA1State).1 =
          Except.ok "Agent a1 started with task t2" ∧
        dictGet "a1"
            (start_agent "a1" "demo" "t2" liveA1State).2.active_agents =
          some { name := "demo_a1", status := "idle" } ∧
        ((start_agent "a1" "demo" "t2"
            liveA1State).2.active_agents.map Prod.fst).Nodup) := by
  have h0 : (liveA1State.active_agents.map Prod.fst).Nodup := by decide
  have th := start_agent_always_accepts_and_replaces "a1" "demo" "t2"
    liveA1State
  exact ⟨h0, th.1, th.2.1, th.2.2.2 h0⟩

/-- Strengthening an edge row does not change its key fields. -/
theorem edgeKeyMatch_strengthen (f2 t2 : Nat) (r2 : String) (now : Nat)
    (e : KnowledgeEdgeR) :
    edgeKeyMatch f2 t2 r2 { e with
      interaction_count := e.interaction_count + 1
      last_interaction := now
      weight := pyMin (e.weight + 1/10) 2 } = edgeKeyMatch f2 t2 r2 e := rfl

/-- An upsert never decreases the weight or the interaction count of any edge
row whose weight respects the cap. -/
theorem ensure_edge_mono (now f t : Nat) (rel : String) (w : ℚ)
    (f2 t2 : Nat) (r2 : String) :
    ∀ (l : List KnowledgeEdgeR) (e : KnowledgeEdgeR),
      lookupEdge f2 t2 r2 l = some e → e.weight ≤ 2 →
      ∃ e2, lookupEdge f2 t2 r2 (ensure_edge now f t rel w l) = some e2 ∧
        e.weight ≤ e2.weight ∧ e.interaction_count ≤ e2.interaction_count := by
  intro l
  induction l with
  | nil =>
    intro e he _
    simp [lookupEdge, List.find?] at he
  | cons x xs ih =>
    intro e he hw
    by_cases hm : edgeKeyMatch f t rel x = true
    · simp only [ensure_edge, hm, if_true]
      by_cases hm2 : edgeKeyMatch f2 t2 r2 x = true
      · have hex : x = e := by
          simp only [lookupEdge, List.find?, hm2] at he
          exact Option.some.inj he
        subst hex
        have hm3 : edgeKeyMatch f2 t2 r2 { x with
          interaction_count := x.interaction_count + 1
          last_interaction := now
          weight := pyMin (x.weight + 1/10) 2 } = true := hm2
        refine ⟨{ x with
          interaction_count := x.interaction_count + 1
          last_interaction := now
          weight := pyMin (x.weight + 1/10) 2 }, ?_, ?_, ?_⟩
        · simp only [lookupEdge, List.find?, hm3]
        · exact le_pyMin (by linarith) hw
        · exact Nat.le_succ _
      · have hb : edgeKeyMatch f2 t2 r2 x = false := by
          exact Bool.not_eq_true _ ▸ hm2
        have hm3 : edgeKeyMatch f2 t2 r2 { x with
          interaction_count := x.interaction_count + 1
          last_interaction := now
          weight := pyMin (x.weight + 1/10) 2 } = false := hb
        have he2 : List.find? (edgeKeyMatch f2 t2 r2) xs = some e := by
          simp only [lookupEdge, List.find?, hb] at he
          exact he
        refine ⟨e, ?_, le_refl _, le_refl _⟩
        simp only [lookupEdge, List.find?, hm3]
        exact he2
    · simp only [ensure_edge, hm, Bool.false_eq_true, if_false]
      by_cases hm2 : edgeKeyMatch f2 t2 r2 x = true
      · have hex : x = e := by
          simp only [lookupEdge, List.find?, hm2] at he
          exact Option.some.inj he
        subst hex
        refine ⟨x, ?_, le_refl _, le_refl _⟩
        simp only [lookupEdge, List.find?, hm2]
      · have hb : edgeKeyMatch f2 t2 r2 x = false := by
          exact Bool.not_eq_true _ ▸ hm2
        have he2 : lookupEdge f2 t2 r2 xs = some e := by
          simp only [lookupEdge, List.find?, hb] at he ⊢
          exact he
        obtain ⟨e2, h1, h2, h3⟩ := ih e he2 hw
        refine ⟨e2, ?_, h2, h3⟩
        simp only [lookupEdge, List.find?, hb]
        exact h1

/-- An upsert preserves the weight cap of 2.0 on every edge row. -/
theorem ensure_edge_cap (now f t : Nat) (rel : String) (w : ℚ)
    (hw : w ≤ 2) :
    ∀ (l : List KnowledgeEdgeR), (∀ e ∈ l, e.weight ≤ 2) →
      ∀ e2 ∈ ensure_edge now f t rel w l, e2.weight ≤ 2 := by
  intro l
  induction l with
  | nil =>
    intro _ e2 he2
    simp only [ensure_edge, List.mem_singleton] at he2
    subst he2
    exact hw
  | cons x xs ih =>
    intro hall e2 he2
    by_cases hm : edgeKeyMatch f t rel x = true
    · simp only [ensure_edge, hm, if_true, List.mem_cons] at he2
      rcases he2 with rfl | he2
      · exact pyMin_le_right _ _
      · exact hall e2 (List.mem_cons_of_mem x he2)
    · simp only [ensure_edge, hm, Bool.false_eq_true, if_false,
        List.mem_cons] at he2
      rcases he2 with rfl | he2
      · exact hall _ (List.mem_cons_self _ _)
      · exact ih (fun e he => hall e (List.mem_cons_of_mem _ he)) e2 he2

set_option maxRecDepth 8000 in
/-- C4: an edge upsert never decreases (nor resets) the weight or the
interaction count of any edge row respecting the cap, every upsert with an
in-cap initial weight keeps all weights at or below 2.0, and after 20
repeated observations of the same edge the weight is exactly 2.0 and the
interaction count exactly 20. -/
theorem ensure_edge_monotone_capped_saturates :
    (∀ (now f t : Nat) (rel : String) (w : ℚ) (f2 t2 : Nat) (r2 : String)
        (l : List KnowledgeEdgeR) (e : KnowledgeEdgeR),
        lookupEdge f2 t2 r2 l = some e → e.weight ≤ 2 →
        ∃ e2, lookupEdge f2 t2 r2 (ensure_edge now f t rel w l) = some e2 ∧
          e.weight ≤ e2.weight ∧
          e.interaction_count ≤ e2.interaction_count) ∧
    (∀ (now f t : Nat) (rel : String) (w : ℚ), w ≤ 2 →
        ∀ (l : List KnowledgeEdgeR), (∀ e ∈ l, e.weight ≤ 2) →
        ∀ e2 ∈ ensure_edge now f t rel w l, e2.weight ≤ 2) ∧
    ((lookupEdge 0 1 "works_on"
        (Nat.iterate (ensure_edge 7 0 1 "works_on" 1) 20 [])).map
        (fun e => e.weight) = some 2 ∧
      (lookupEdge 0 1 "works_on"
        (Nat.iterate (ensure_edge 7 0 1 "works_on" 1) 20 [])).map
        (fun e => e.interaction_count) = some 20) := by
  refine ⟨?_, ?_, ?_, ?_⟩
  · intro now f t rel w f2 t2 r2 l e he hw
    exact ensure_edge_mono now f t rel w f2 t2 r2 l e he hw
  · intro now f t rel w hw l hall e2 he2
    exact ensure_edge_cap now f t rel w hw l hall e2 he2
  · decide
  · decide

theorem ensure_edge_monotone_capped_saturates_witness :
    (lookupEdge 0 1 "works_on" [seedEdge] = some seedEdge ∧
      seedEdge.weight ≤ 2 ∧
      ∃ e2, lookupEdge 0 1 "works_on"
          (ensure_edge 3 0 1 "works_on" 1 [seedEdge]) = some e2 ∧
        seedEdge.weight ≤ e2.weight ∧
        seedEdge.interaction_count ≤ e2.interaction_count) ∧
    ((1 : ℚ) ≤ 2 ∧ (∀ e ∈ [seedEdge], e.weight ≤ 2) ∧
      ∀ e2 ∈ ensure_edge 3 0 1 "works_on" 1 [seedEdge], e2.weight ≤ 2) := by
  have h1 : lookupEdge 0 1 "works_on" [seedEdge] = some seedEdge := by decide
  have h2 : seedEdge.weight ≤ 2 := by decide
  have h3 : (1 : ℚ) ≤ 2 := by decide
  have h4 : ∀ e ∈ [seedEdge], e.weight ≤ 2 := by decide
  exact ⟨⟨h1, h2,
      ensure_edge_monotone_capped_saturates.1 3 0 1 "works_on" 1 0 1
        "works_on" [seedEdge] seedEdge h1 h2⟩,
    ⟨h3, h4,
      ensure_edge_monotone_capped_saturates.2.1 3 0 1 "works_on" 1 h3
        [seedEdge] h4⟩⟩

/-- Awaiting a freshly recorded unsettled handle runs its task body and
appends its events to the log. -/
theorem await_task_fresh (execRes : TaskExec) (aid : String) (st : MgrState)
    (hdl : TaskHandle) (h : dictGet aid st.agent_tasks = some hdl)
    (hd : hdl.done = false) :
    await_task execRes aid st =
      { st with
        agent_tasks := dictSet aid { hdl with done := true } st.agent_tasks
        log := st.log ++ run_agent_task_trace execRes aid hdl.task_type } := by
  unfold await_task
  rw [h]
  simp [hd]

/-- One sequential step — `start_agent` followed by awaiting the background
handle — appends exactly the start events and the task-body events of the
spec to the log. -/
theorem seq_step_log (execRes : TaskExec) (spec : AgentSpec) (st : MgrState) :
    (await_task execRes spec.agent_id
      (start_agent spec.agent_id spec.agent_type spec.task_type st).2).log =
      st.log ++ specTrace execRes spec := by
  have h2 : dictGet spec.agent_id
      (start_agent spec.agent_id spec.agent_type
        spec.task_type st).2.agent_tasks =
      some { agent_id := spec.agent_id, task_type := spec.task_type,
             done := false } :=
    dictGet_dictSet_self spec.agent_id _ st.agent_tasks
  rw [await_task_fresh execRes spec.agent_id _ _ h2 rfl]
  show (start_agent spec.agent_id spec.agent_type spec.task_type st).2.log ++
      run_agent_task_trace execRes spec.agent_id spec.task_type =
    st.log ++ specTrace execRes spec
  have h3 : (start_agent spec.agent_id spec.agent_type
      spec.task_type st).2.log = st.log ++ specStartEvents spec := rfl
  rw [h3, specTrace, List.append_assoc]

/-- The full log of a sequential orchestration is the initial log followed by
the per-spec traces in plan order. -/
theorem seq_log (execRes : TaskExec) :
    ∀ (specs : List AgentSpec) (st : MgrState),
      (orchestrate_sequential execRes specs st).log =
        st.log ++ (specs.map (specTrace execRes)).flatten := by
  intro specs
  induction specs with
  | nil => intro st; simp [orchestrate_sequential]
  | cons spec rest ih =>
    intro st
    have hstep : orchestrate_sequential execRes (spec :: rest) st =
        orchestrate_sequential execRes rest
          (await_task execRes spec.agent_id
            (start_agent spec.agent_id spec.agent_type
              spec.task_type st).2) := rfl
    rw [hstep, ih, seq_step_log]
    simp [List.append_assoc]

/-- The task-body trace ends with the terminal event of the agent. -/
theorem run_trace_decomp (execRes : TaskExec) (spec : AgentSpec) :
    ∃ P, run_agent_task_trace execRes spec.agent_id spec.task_type =
      P ++ [terminalEv execRes spec] := by
  unfold run_agent_task_trace terminalEv
  cases h : execRes spec.agent_id spec.task_type with
  | ok r =>
    exact ⟨[MgrEv.broadcast spec.agent_id "running" 25
        ("Executing " ++ spec.task_type ++ " task"),
      MgrEv.broadcast spec.agent_id "completed" 100
        ("Task " ++ spec.task_type ++ " completed successfully")], by simp⟩
  | error e =>
    exact ⟨[MgrEv.broadcast spec.agent_id "running" 25
        ("Executing " ++ spec.task_type ++ " task"),
      MgrEv.broadcast spec.agent_id "error" 0
        ("Task " ++ spec.task_type ++ " failed: " ++ e)], by simp⟩

/-- C5: under the sequential strategy, for every plan and every adjacent pair
of specs, the terminal event of the earlier agent appears in the event log
strictly before the start event of the later agent — the coordinator only
calls `start_agent` for the next spec after the background handle of the
previous one has settled. -/
theorem sequential_terminal_precedes_next_start (execRes : TaskExec)
    (pre : List AgentSpec) (s1 s2 : AgentSpec) (post : List AgentSpec)
    (st : MgrState) :
    ∃ A B C,
      (orchestrate_sequential execRes (pre ++ s1 :: s2 :: post) st).log =
        A ++ terminalEv execRes s1 :: B ++
          MgrEv.kgAgentEvent s2.agent_id "start" :: C := by
  obtain ⟨P, hP⟩ := run_trace_decomp execRes s1
  refine ⟨st.log ++ (pre.map (specTrace execRes)).flatten ++
      specStartEvents s1 ++ P,
    [MgrEv.broadcast s2.agent_id "running" 0
      ("Started " ++ s2.agent_type ++ " agent with task: " ++ s2.task_type)],
    run_agent_task_trace execRes s2.agent_id s2.task_type ++
      (post.map (specTrace execRes)).flatten, ?_⟩
  rw [seq_log]
  simp [specTrace, specStartEvents, hP, List.append_assoc]

/-- Full behavioral characterization of `ensure_node`: it returns a node id
registered for the key, touches no other table, never lowers the fresh-id
counter, preserves existing registrations and id freshness, hands out a fresh
id exactly when the key was absent, and is the identity when the key was
present. -/
theorem ensure_node_spec (ty eid ename : String) (st : GraphStore)
    (hn : ∀ n ∈ st.nodes, n.id < st.nextId) :
    ∃ i st2, ensure_node ty eid ename st = (i, st2) ∧
      st2.events = st.events ∧
      st2.edges = st.edges ∧
      st2.patterns = st.patterns ∧
      nodeIdOf st2 ty eid = some i ∧
      st.nextId ≤ st2.nextId ∧
      (∀ n ∈ st2.nodes, n.id < st2.nextId) ∧
      (∀ ty2 eid2 k, nodeIdOf st ty2 eid2 = some k →
        nodeIdOf st2 ty2 eid2 = some k) ∧
      (∀ ty2 eid2, nodeIdOf st ty2 eid2 = none → ty2 ≠ ty →
        nodeIdOf st2 ty2 eid2 = none) ∧
      (nodeIdOf st ty eid = none → st.nextId ≤ i) ∧
      (∀ k, nodeIdOf st ty eid = some k → i = k ∧ st2 = st) := by
  cases hfind : st.nodes.find? (nodeKeyMatch ty eid) with
  | some n =>
    refine ⟨n.id, st, ?_, rfl, rfl, rfl, ?_, le_refl _, hn, ?_, ?_, ?_, ?_⟩
    · unfold ensure_node; rw [hfind]
    · unfold nodeIdOf; rw [hfind]; rfl
    · intro ty2 eid2 k hk; exact hk
    · intro ty2 eid2 hk _; exact hk
    · intro hnone
      unfold nodeIdOf at hnone
      rw [hfind] at hnone
      exact absurd (show (some n.id : Option Nat) = none from hnone)
        (Option.some_ne_none _)
    · intro k hk
      unfold nodeIdOf at hk
      rw [hfind] at hk
      have hk2 : (some n.id : Option Nat) = some k := hk
      exact ⟨Option.some.inj hk2, rfl⟩
  | none =>
    refine ⟨st.nextId,
      { st with
        nodes := st.nodes ++
          [{ id := st.nextId, node_type := ty, entity_id := eid,
             entity_name := ename }]
        nextId := st.nextId + 1 },
      ?_, rfl, rfl, rfl, ?_, Nat.le_succ _, ?_, ?_, ?_, ?_, ?_⟩
    · unfold ensure_node; rw [hfind]
    · unfold nodeIdOf
      rw [List.find?_append, hfind]
      simp [List.find?, nodeKeyMatch]
    · intro n hn2
      rcases List.mem_append.mp hn2 with h | h
      · exact Nat.lt_succ_of_lt (hn n h)
      · simp only [List.mem_singleton] at h
        subst h
        exact Nat.lt_succ_self _
    · intro ty2 eid2 k hk
      unfold nodeIdOf at hk ⊢
      rw [List.find?_append]
      cases hf2 : st.nodes.find? (nodeKeyMatch ty2 eid2) with
      | some m =>
        rw [hf2] at hk
        simpa using hk
      | none =>
        rw [hf2] at hk
        simp at hk
    · intro ty2 eid2 hk hne2
      unfold nodeIdOf at hk ⊢
      rw [List.find?_append]
      cases hf2 : st.nodes.find? (nodeKeyMatch ty2 eid2) with
      | some m =>
        rw [hf2] at hk
        simp at hk
      | none =>
        rw [hf2] at hk
        simp only [Option.or]
        have : nodeKeyMatch ty2 eid2
            { id := st.nextId, node_type := ty, entity_id := eid,
              entity_name := ename } = false := by
          simp [nodeKeyMatch]
          intro h
          exact absurd h.symm hne2
        simp [List.find?, this]
    · intro _; exact le_refl _
    · intro k hk
      unfold nodeIdOf at hk
      rw [hfind] at hk
      simp at hk

/-- When no row matches the key, the upsert inserts a fresh row at the end of
the table. -/
theorem ensure_edge_all_miss (now f t : Nat) (rel : String) (w : ℚ) :
    ∀ l : List KnowledgeEdgeR, (∀ e ∈ l, edgeKeyMatch f t rel e = false) →
      ensure_edge now f t rel w l = l ++
        [{ from_node_id := f, to_node_id := t, relationship_type := rel,
           weight := w, confidence := 1, interaction_count := 1,
           last_interaction := now }] := by
  intro l
  induction l with
  | nil => intro _; rfl
  | cons x xs ih =>
    intro hall
    have hx : edgeKeyMatch f t rel x = false :=
      hall x (List.mem_cons_self x xs)
    simp only [ensure_edge, hx, Bool.false_eq_true, if_false, List.cons_append,
      List.cons.injEq, true_and]
    exact ih (fun e he => hall e (List.mem_cons_of_mem x he))

/-- The upsert walks past a block of non-matching rows untouched. -/
theorem ensure_edge_skip (now f t : Nat) (rel : String) (w : ℚ) :
    ∀ (l1 l2 : List KnowledgeEdgeR),
      (∀ e ∈ l1, edgeKeyMatch f t rel e = false) →
      ensure_edge now f t rel w (l1 ++ l2) =
        l1 ++ ensure_edge now f t rel w l2 := by
  intro l1
  induction l1 with
  | nil => intro l2 _; rfl
  | cons x xs ih =>
    intro l2 hall
    have hx : edgeKeyMatch f t rel x = false :=
      hall x (List.mem_cons_self x xs)
    simp only [List.cons_append, ensure_edge, hx, Bool.false_eq_true, if_false,
      List.cons.injEq, true_and]
    exact ih l2 (fun e he => hall e (List.mem_cons_of_mem x he))

/-- Unfolding of `store_agent_event` with a project id, given the results of
the two node upserts. -/
theorem store_agent_event_eq (now : Nat) (aid et pay p : String)
    (st : GraphStore) (i : Nat) (stA : GraphStore) (j : Nat)
    (stP : GraphStore)
    (hA : ensure_node "agent" aid ("Agent " ++ aid)
      { st with events := st.events ++
        [{ event_type := et, agent_id := aid, project_id := some p,
           payload := pay, timestamp := now }] } = (i, stA))
    (hP : ensure_node "project" p ("Project " ++ p) stA = (j, stP)) :
    store_agent_event now aid et pay (some p) st =
      { stP with edges := ensure_edge now i j "works_on" 1 stP.edges } := by
  unfold store_agent_event
  simp only [hA, hP]

/-- A registered node id is below the fresh-id counter. -/
theorem nodeIdOf_lt (st : GraphStore) (ty eid : String) (k : Nat)
    (h : nodeIdOf st ty eid = some k)
    (hn : ∀ n ∈ st.nodes, n.id < st.nextId) : k < st.nextId := by
  unfold nodeIdOf at h
  cases hf : st.nodes.find? (nodeKeyMatch ty eid) with
  | none =>
    rw [hf] at h
    exact absurd (show (none : Option Nat) = some k from h)
      (by simp)
  | some n =>
    rw [hf] at h
    have h2 : n.id = k := Option.some.inj (show some n.id = some k from h)
    subst h2
    exact hn n (List.mem_of_find?_eq_some hf)

/-- Every node id referenced by the upserted edge table is either referenced
by the input table or is one of the two endpoint ids of the upsert. -/
theorem ensure_edge_ids (now f t : Nat) (rel : String) (w : ℚ)
    (P : Nat → Prop) (hf : P f) (ht : P t) :
    ∀ l : List KnowledgeEdgeR,
      (∀ e ∈ l, P e.from_node_id ∧ P e.to_node_id) →
      ∀ e ∈ ensure_edge now f t rel w l,
        P e.from_node_id ∧ P e.to_node_id := by
  intro l
  induction l with
  | nil =>
    intro _ e he
    simp only [ensure_edge, List.mem_singleton] at he
    subst he
    exact ⟨hf, ht⟩
  | cons x xs ih =>
    intro hall e he
    by_cases hm : edgeKeyMatch f t rel x = true
    · simp only [ensure_edge, hm, if_true, List.mem_cons] at he
      rcases he with rfl | he
      · exact hall x (List.mem_cons_self x xs)
      · exact hall e (List.mem_cons_of_mem x he)
    · simp only [ensure_edge, hm, Bool.false_eq_true, if_false,
        List.mem_cons] at he
      rcases he with rfl | he
      · exact hall _ (List.mem_cons_self _ _)
      · exact ih (fun e2 he2 => hall e2 (List.mem_cons_of_mem x he2)) e he

/-- Behavioral characterization of `store_agent_event` with a project id: the
agent and project nodes end up registered, the edge table is the `works_on`
upsert between their ids over the previous table, id freshness is preserved,
previous registrations survive, and the two ids agree with any previous
registration of the same entities (and are fresh otherwise). -/
theorem store_agent_event_spec (now : Nat) (a et pay p : String)
    (st : GraphStore) (hfresh : IdsFresh st) :
    ∃ i j,
      nodeIdOf (store_agent_event now a et pay (some p) st) "agent" a =
        some i ∧
      nodeIdOf (store_agent_event now a et pay (some p) st) "project" p =
        some j ∧
      (store_agent_event now a et pay (some p) st).edges =
        ensure_edge now i j "works_on" 1 st.edges ∧
      IdsFresh (store_agent_event now a et pay (some p) st) ∧
      (∀ ty2 eid2 k, nodeIdOf st ty2 eid2 = some k →
        nodeIdOf (store_agent_event now a et pay (some p) st) ty2 eid2 =
          some k) ∧
      (∀ k, nodeIdOf st "agent" a = some k → i = k) ∧
      (nodeIdOf st "agent" a = none → st.nextId ≤ i) ∧
      (∀ k, nodeIdOf st "project" p = some k → j = k) ∧
      (nodeIdOf st "project" p = none → st.nextId ≤ j) := by
  obtain ⟨i, stA, henA, hevA, hedA, hpatA, hidA, hleA, hnA, hpresA, hnpA,
      hnnA, hsmA⟩ :=
    ensure_node_spec "agent" a ("Agent " ++ a)
      { st with events := st.events ++
        [{ event_type := et, agent_id := a, project_id := some p,
           payload := pay, timestamp := now }] } hfresh.1
  obtain ⟨j, stP, henP, hevP, hedP, hpatP, hidP, hleP, hnP, hpresP, hnpP,
      hnnP, hsmP⟩ :=
    ensure_node_spec "project" p ("Project " ++ p) stA hnA
  have hstore := store_agent_event_eq now a et pay p st i stA j stP henA henP
  have hPA : nodeIdOf stP "agent" a = some i := hpresP "agent" a i hidA
  have hiP : i < stP.nextId := nodeIdOf_lt stP "agent" a i hPA hnP
  have hjP : j < stP.nextId := nodeIdOf_lt stP "project" p j hidP hnP
  refine ⟨i, j, ?_, ?_, ?_, ?_, ?_, ?_, ?_, ?_, ?_⟩
  · rw [hstore]; exact hPA
  · rw [hstore]; exact hidP
  · rw [hstore]
    show ensure_edge now i j "works_on" 1 stP.edges =
      ensure_edge now i j "works_on" 1 st.edges
    rw [hedP, hedA]
  · rw [hstore]
    constructor
    · exact hnP
    · show ∀ e ∈ ensure_edge now i j "works_on" 1 stP.edges,
        e.from_node_id < stP.nextId ∧ e.to_node_id < stP.nextId
      refine ensure_edge_ids now i j "works_on" 1 (fun k => k < stP.nextId)
        hiP hjP stP.edges ?_
      intro e he
      rw [hedP, hedA] at he
      have h0 := hfresh.2 e he
      have hle : st.nextId ≤ stP.nextId := le_trans hleA hleP
      exact ⟨lt_of_lt_of_le h0.1 hle, lt_of_lt_of_le h0.2 hle⟩
  · intro ty2 eid2 k hk
    rw [hstore]
    exact hpresP ty2 eid2 k (hpresA ty2 eid2 k hk)
  · intro k hk
    exact (hsmA k hk).1
  · intro hk
    exact hnnA hk
  · intro k hk
    exact (hsmP k (hpresA "project" p k hk)).1
  · intro hk
    have h1 : nodeIdOf stA "project" p = none :=
      hnpA "project" p hk (by decide)
    exact le_trans hleA (hnnP h1)

/-- C3: storing the same (agent, project) event twice, starting from a graph
holding no `works_on` edge between those two entities, leaves exactly one
`works_on` edge between the agent node and the project node, and after the
second call that edge has interaction count 2 and weight 1.1 (the initial 1.0
strengthened once by 0.1). -/
theorem store_agent_event_twice_single_edge (now1 now2 : Nat)
    (a p et1 et2 pay1 pay2 : String) (st : GraphStore)
    (hfresh : IdsFresh st) (hnone : worksOnBetween st a p = []) :
    ∃ e, worksOnBetween
        (store_agent_event now2 a et2 pay2 (some p)
          (store_agent_event now1 a et1 pay1 (some p) st)) a p = [e] ∧
      e.interaction_count = 2 ∧ e.weight = 11/10 := by
  obtain ⟨i, j, hA1, hP1, hE1, hFr1, hPres1, hAgS, hAgN, hPrS, hPrN⟩ :=
    store_agent_event_spec now1 a et1 pay1 p st hfresh
  have hKall : ∀ e ∈ st.edges, edgeKeyMatch i j "works_on" e = false := by
    cases hAg : nodeIdOf st "agent" a with
    | none =>
      have hi : st.nextId ≤ i := hAgN hAg
      intro e he
      have h1 : e.from_node_id ≠ i :=
        Nat.ne_of_lt (lt_of_lt_of_le (hfresh.2 e he).1 hi)
      have hb : (e.from_node_id == i) = false := by
        simp [h1]
      simp [edgeKeyMatch, hb]
    | some i0 =>
      have hii : i = i0 := hAgS i0 hAg
      cases hPr : nodeIdOf st "project" p with
      | none =>
        have hj : st.nextId ≤ j := hPrN hPr
        intro e he
        have h1 : e.to_node_id ≠ j :=
          Nat.ne_of_lt (lt_of_lt_of_le (hfresh.2 e he).2 hj)
        have hb : (e.to_node_id == j) = false := by
          simp [h1]
        simp [edgeKeyMatch, hb]
      | some j0 =>
        have hjj : j = j0 := hPrS j0 hPr
        subst hii
        subst hjj
        unfold worksOnBetween at hnone
        rw [hAg, hPr] at hnone
        change st.edges.filter (edgeKeyMatch i j "works_on") = [] at hnone
        intro e he
        have h2 := List.filter_eq_nil_iff.mp hnone e he
        exact Bool.eq_false_iff.mpr h2
  have hfilter0 : st.edges.filter (edgeKeyMatch i j "works_on") = [] := by
    rw [List.filter_eq_nil_iff]
    intro e he
    rw [hKall e he]
    simp
  have hE1x : (store_agent_event now1 a et1 pay1 (some p) st).edges =
      st.edges ++
        [{ from_node_id := i, to_node_id := j,
           relationship_type := "works_on", weight := 1, confidence := 1,
           interaction_count := 1, last_interaction := now1 }] := by
    rw [hE1]
    exact ensure_edge_all_miss now1 i j "works_on" 1 st.edges hKall
  obtain ⟨i2, j2, hA2, hP2, hE2, hFr2, hPres2, hAgS2, hAgN2, hPrS2, hPrN2⟩ :=
    store_agent_event_spec now2 a et2 pay2 p
      (store_agent_event now1 a et1 pay1 (some p) st) hFr1
  have hi2 : i = i2 := (hAgS2 i hA1).symm
  have hj2 : j = j2 := (hPrS2 j hP1).symm
  subst hi2
  subst hj2
  have hE2x : (store_agent_event now2 a et2 pay2 (some p)
      (store_agent_event now1 a et1 pay1 (some p) st)).edges =
      st.edges ++
        [{ from_node_id := i, to_node_id := j,
           relationship_type := "works_on",
           weight := pyMin (1 + 1/10) 2, confidence := 1,
           interaction_count := 2, last_interaction := now2 }] := by
    rw [hE2, hE1x]
    rw [ensure_edge_skip now2 i j "works_on" 1 st.edges _ hKall]
    congr 1
    have hm : edgeKeyMatch i j "works_on"
        { from_node_id := i, to_node_id := j,
          relationship_type := "works_on", weight := 1, confidence := 1,
          interaction_count := 1, last_interaction := now1 } = true := by
      simp [edgeKeyMatch]
    simp only [ensure_edge, hm, if_true]
  refine ⟨⟨i, j, "works_on", pyMin (1 + 1/10) 2, 1, 2, now2⟩, ?_, rfl,
    by show pyMin (1 + 1/10) 2 = (11/10 : ℚ); decide⟩
  unfold worksOnBetween
  rw [hA2, hP2]
  change (store_agent_event now2 a et2 pay2 (some p)
      (store_agent_event now1 a et1 pay1 (some p) st)).edges.filter
      (edgeKeyMatch i j "works_on") = _
  have hm2 : edgeKeyMatch i j "works_on"
      ⟨i, j, "works_on", pyMin (1 + 1/10) 2, 1, 2, now2⟩ = true := by
    simp [edgeKeyMatch]
  rw [hE2x, List.filter_append, hfilter0]
  simp only [List.nil_append, List.filter_cons, hm2, if_true,
    List.filter_nil]

theorem store_agent_event_twice_single_edge_witness :
    IdsFresh emptyStore ∧ worksOnBetween emptyStore "a1" "p1" = [] ∧
      ∃ e, worksOnBetween
          (store_agent_event 2 "a1" "task_execution" "" (some "p1")
            (store_agent_event 1 "a1" "start" "" (some "p1")
              emptyStore)) "a1" "p1" = [e] ∧
        e.interaction_count = 2 ∧ e.weight = 11/10 := by
  have h1 : IdsFresh emptyStore :=
    ⟨fun n hn => absurd hn (List.not_mem_nil n),
     fun e he => absurd he (List.not_mem_nil e)⟩
  have h2 : worksOnBetween emptyStore "a1" "p1" = [] := rfl
  exact ⟨h1, h2, store_agent_event_twice_single_edge 1 2 "a1" "p1" "start"
    "task_execution" "" "" emptyStore h1 h2⟩

/-- Persisting a list of patterns one by one appends them to the pattern
table. -/
theorem foldl_store_pattern (ps : List PatternR) :
    ∀ st : GraphStore,
      (ps.foldl (fun s p2 => store_pattern p2 s) st).patterns =
        st.patterns ++ ps := by
  induction ps with
  | nil => intro st; simp
  | cons p rest ih =>
    intro st
    show (rest.foldl (fun s p2 => store_pattern p2 s)
      (store_pattern p st)).patterns = st.patterns ++ p :: rest
    rw [ih (store_pattern p st)]
    show (st.patterns ++ [p]) ++ rest = st.patterns ++ p :: rest
    simp

/-- When the peak hour beats 1.5 times the mean hourly count, the hourly
detector emits the corresponding `temporal_peak` pattern. -/
theorem detect_temporal_patterns_hourly (now lb : Nat)
    (evs : List TemporalEventR) (h c : Nat)
    (hpk : firstMaxByCount (hourlyActivity (lookbackEvents now lb evs)) =
      some (h, c))
    (hgt : (c : ℚ) >
      meanCount (hourlyActivity (lookbackEvents now lb evs)) * (3/2)) :
    ({ pattern_type := "temporal_peak"
       pattern_name := "Peak activity at hour " ++ toString h
       confidence_score := 4/5
       pattern_data := PatternData.hourly h c
         (meanCount (hourlyActivity (lookbackEvents now lb evs))) } :
      PatternR) ∈ detect_temporal_patterns now lb evs := by
  unfold detect_temporal_patterns
  simp only [hpk]
  rw [if_pos hgt]
  exact List.mem_append_left _ (List.mem_cons_self _ _)

/-- When the peak day beats 1.3 times the mean daily count, the daily
detector emits the corresponding `daily_peak` pattern. -/
theorem detect_temporal_patterns_daily (now lb : Nat)
    (evs : List TemporalEventR) (d : String) (c : Nat)
    (hpk : firstMaxByCount (dailyActivity (lookbackEvents now lb evs)) =
      some (d, c))
    (hgt : (c : ℚ) >
      meanCount (dailyActivity (lookbackEvents now lb evs)) * (13/10)) :
    ({ pattern_type := "daily_peak"
       pattern_name := "High activity on " ++ d
       confidence_score := 3/4
       pattern_data := PatternData.daily d c
         (meanCount (dailyActivity (lookbackEvents now lb evs))) } :
      PatternR) ∈ detect_temporal_patterns now lb evs := by
  unfold detect_temporal_patterns
  simp only [hpk]
  rw [if_pos hgt]
  exact List.mem_append_right _ (List.mem_cons_self _ _)

/-- C6: whenever the peak hour of the events in the lookback window exceeds
1.5 times the mean hourly count, `detect_patterns` returns a `temporal_peak`
pattern referencing that hour; analogously it returns a `daily_peak` pattern
when the peak day exceeds 1.3 times the mean daily count; and every pattern
in the returned list has been persisted to the pattern table before
`detect_patterns` returns. -/
theorem detect_patterns_flags_peaks_and_persists (now lb : Nat)
    (collabPatterns perfPatterns anomalyPatterns : List PatternR)
    (st : GraphStore) :
    (∀ h c, firstMaxByCount
        (hourlyActivity (lookbackEvents now lb st.events)) = some (h, c) →
      (c : ℚ) > meanCount (hourlyActivity (lookbackEvents now lb st.events)) *
        (3/2) →
      ∃ pat ∈ (detect_patterns now lb collabPatterns perfPatterns
          anomalyPatterns st).1,
        pat.pattern_type = "temporal_peak" ∧
        pat.pattern_data = PatternData.hourly h c
          (meanCount (hourlyActivity (lookbackEvents now lb st.events)))) ∧
    (∀ d c, firstMaxByCount
        (dailyActivity (lookbackEvents now lb st.events)) = some (d, c) →
      (c : ℚ) > meanCount (dailyActivity (lookbackEvents now lb st.events)) *
        (13/10) →
      ∃ pat ∈ (detect_patterns now lb collabPatterns perfPatterns
          anomalyPatterns st).1,
        pat.pattern_type = "daily_peak" ∧
        pat.pattern_data = PatternData.daily d c
          (meanCount (dailyActivity (lookbackEvents now lb st.events)))) ∧
    (∀ pat ∈ (detect_patterns now lb collabPatterns perfPatterns
        anomalyPatterns st).1,
      pat ∈ ((detect_patterns now lb collabPatterns perfPatterns
        anomalyPatterns st).2).patterns) := by
  refine ⟨?_, ?_, ?_⟩
  · intro h c hpk hgt
    refine ⟨⟨"temporal_peak", "Peak activity at hour " ++ toString h, 4/5,
      PatternData.hourly h c
        (meanCount (hourlyActivity (lookbackEvents now lb st.events)))⟩,
      ?_, rfl, rfl⟩
    show _ ∈ detect_temporal_patterns now lb st.events ++ collabPatterns ++
      perfPatterns ++ anomalyPatterns
    exact List.mem_append_left _ (List.mem_append_left _
      (List.mem_append_left _
        (detect_temporal_patterns_hourly now lb st.events h c hpk hgt)))
  · intro d c hpk hgt
    refine ⟨⟨"daily_peak", "High activity on " ++ d, 3/4,
      PatternData.daily d c
        (meanCount (dailyActivity (lookbackEvents now lb st.events)))⟩,
      ?_, rfl, rfl⟩
    show _ ∈ detect_temporal_patterns now lb st.events ++ collabPatterns ++
      perfPatterns ++ anomalyPatterns
    exact List.mem_append_left _ (List.mem_append_left _
      (List.mem_append_left _
        (detect_temporal_patterns_daily now lb st.events d c hpk hgt)))
  · intro pat hmem
    show pat ∈ ((detect_patterns now lb collabPatterns perfPatterns
      anomalyPatterns st).1.foldl (fun s p2 => store_pattern p2 s)
        st).patterns
    rw [foldl_store_pattern]
    exact List.mem_append_right _ hmem

theorem detect_patterns_flags_peaks_and_persists_witness :
    (firstMaxByCount
        (hourlyActivity (lookbackEvents 86400 1 peakStore.events)) =
        some (0, 6) ∧
      ((6 : Nat) : ℚ) >
        meanCount (hourlyActivity (lookbackEvents 86400 1 peakStore.events)) *
          (3/2) ∧
      ∃ pat ∈ (detect_patterns 86400 1 [] [] [] peakStore).1,
        pat.pattern_type = "temporal_peak" ∧
        pat.pattern_data = PatternData.hourly 0 6
          (meanCount (hourlyActivity
            (lookbackEvents 86400 1 peakStore.events)))) ∧
    (firstMaxByCount
        (dailyActivity (lookbackEvents 86400 1 peakStore.events)) =
        some ("Thursday", 6) ∧
      ((6 : Nat) : ℚ) >
        meanCount (dailyActivity (lookbackEvents 86400 1 peakStore.events)) *
          (13/10) ∧
      ∃ pat ∈ (detect_patterns 86400 1 [] [] [] peakStore).1,
        pat.pattern_type = "daily_peak" ∧
        pat.pattern_data = PatternData.daily "Thursday" 6
          (meanCount (dailyActivity
            (lookbackEvents 86400 1 peakStore.events)))) := by
  have h1 : firstMaxByCount
      (hourlyActivity (lookbackEvents 86400 1 peakStore.events)) =
      some (0, 6) := by decide
  have h2 : ((6 : Nat) : ℚ) >
      meanCount (hourlyActivity (lookbackEvents 86400 1 peakStore.events)) *
        (3/2) := by decide
  have h3 : firstMaxByCount
      (dailyActivity (lookbackEvents 86400 1 peakStore.events)) =
      some ("Thursday", 6) := by decide
  have h4 : ((6 : Nat) : ℚ) >
      meanCount (dailyActivity (lookbackEvents 86400 1 peakStore.events)) *
        (13/10) := by decide
  exact ⟨⟨h1, h2,
      (detect_patterns_flags_peaks_and_persists 86400 1 [] [] []
        peakStore).1 0 6 h1 h2⟩,
    ⟨h3, h4,
      (detect_patterns_flags_peaks_and_persists 86400 1 [] [] []
        peakStore).2.1 "Thursday" 6 h3 h4⟩⟩

/-- Inserting into the sort keeps exactly the elements. -/
theorem insertByTimestamp_perm (e : TemporalEventR) :
    ∀ l : List TemporalEventR, (insertByTimestamp e l).Perm (e :: l) := by
  intro l
  induction l with
  | nil => exact List.Perm.refl _
  | cons y ys ih =>
    by_cases hc : e.timestamp ≤ y.timestamp
    · simp only [insertByTimestamp, hc, if_true]
      exact List.Perm.refl _
    · simp only [insertByTimestamp, hc, if_false]
      exact (List.Perm.cons y ih).trans (List.Perm.swap e y ys)

/-- The timestamp sort is a permutation. -/
theorem orderByTimestamp_perm (l : List TemporalEventR) :
    (orderByTimestamp l).Perm l := by
  induction l with
  | nil => exact List.Perm.refl _
  | cons e es ih =>
    show (insertByTimestamp e (orderByTimestamp es)).Perm (e :: es)
    exact (insertByTimestamp_perm e (orderByTimestamp es)).trans
      (List.Perm.cons e ih)

/-- Inserting into a timestamp-sorted list keeps it sorted. -/
theorem insertByTimestamp_sorted (e : TemporalEventR) :
    ∀ l : List TemporalEventR, l.Pairwise tsLE →
      (insertByTimestamp e l).Pairwise tsLE := by
  intro l
  induction l with
  | nil =>
    intro _
    exact List.pairwise_singleton tsLE e
  | cons y ys ih =>
    intro h
    rw [List.pairwise_cons] at h
    by_cases hc : e.timestamp ≤ y.timestamp
    · simp only [insertByTimestamp, hc, if_true]
      rw [List.pairwise_cons]
      constructor
      · intro z hz
        rcases List.mem_cons.mp hz with rfl | hz2
        · exact hc
        · exact le_trans hc (h.1 z hz2)
      · rw [List.pairwise_cons]
        exact h
    · simp only [insertByTimestamp, hc, if_false]
      rw [List.pairwise_cons]
      constructor
      · intro z hz
        have hz3 : z ∈ e :: ys := (insertByTimestamp_perm e ys).mem_iff.mp hz
        rcases List.mem_cons.mp hz3 with rfl | hz4
        · exact le_of_not_le hc
        · exact h.1 z hz4
      · exact ih h.2

/-- The timestamp sort returns a sorted list. -/
theorem orderByTimestamp_sorted (l : List TemporalEventR) :
    (orderByTimestamp l).Pairwise tsLE := by
  induction l with
  | nil => exact List.Pairwise.nil
  | cons e es ih =>
    exact insertByTimestamp_sorted e (orderByTimestamp es) ih

/-- C7: `query_temporal_context` returns exactly the stored events whose
agent id or project id equals the entity id and whose timestamp lies in
`[now - windowHours, now]` — a permutation of that filter, ordered by
timestamp — with the count field matching, and it mutates no store state;
in the example scenario with three events for `proj-9` at one, ten and
thirty hours before now and a 24-hour window, exactly the first two events
come back, in timestamp order. -/
theorem query_temporal_context_exact_window (now : Nat)
    (entity_id entity_type : String) (wh : Nat) (st : GraphStore) :
    (∀ ev, ev ∈ (query_temporal_context now entity_id entity_type
        wh st).1.events ↔
      (ev ∈ st.events ∧
        (ev.agent_id = entity_id ∨ ev.project_id = some entity_id) ∧
        (now : ℤ) - (wh : ℤ) * 3600 ≤ (ev.timestamp : ℤ) ∧
        (ev.timestamp : ℤ) ≤ (now : ℤ))) ∧
    ((query_temporal_context now entity_id entity_type
        wh st).1.events).Perm
      (st.events.filter (fun e =>
        (e.agent_id == entity_id || e.project_id == some entity_id) &&
          decide ((now : ℤ) - (wh : ℤ) * 3600 ≤ (e.timestamp : ℤ)) &&
          decide ((e.timestamp : ℤ) ≤ (now : ℤ)))) ∧
    ((query_temporal_context now entity_id entity_type
        wh st).1.events).Pairwise tsLE ∧
    (query_temporal_context now entity_id entity_type wh st).1.events_count =
      (query_temporal_context now entity_id entity_type
        wh st).1.events.length ∧
    (query_temporal_context now entity_id entity_type wh st).2 = st ∧
    ((query_temporal_context 200000 "proj-9" "project" 24
        proj9Store).1.events =
      [mkEvent "agentB" (some "proj-9") 164000,
       mkEvent "agentA" (some "proj-9") 196400] ∧
      (query_temporal_context 200000 "proj-9" "project" 24 proj9Store).2 =
        proj9Store) := by
  refine ⟨?_, ?_, ?_, rfl, rfl, by decide, rfl⟩
  · intro ev
    rw [show (query_temporal_context now entity_id entity_type
        wh st).1.events =
      orderByTimestamp (st.events.filter (fun e =>
        (e.agent_id == entity_id || e.project_id == some entity_id) &&
          decide ((now : ℤ) - (wh : ℤ) * 3600 ≤ (e.timestamp : ℤ)) &&
          decide ((e.timestamp : ℤ) ≤ (now : ℤ)))) from rfl]
    rw [(orderByTimestamp_perm _).mem_iff]
    simp only [List.mem_filter, Bool.and_eq_true, Bool.or_eq_true,
      beq_iff_eq, decide_eq_true_eq, and_assoc]
  · exact orderByTimestamp_perm _
  · exact orderByTimestamp_sorted _

/-- C9 counterexample: when the insight step fails after the graph-analytics
step has already produced a metrics blob, the audit row is marked failed with
the captured error and the failure is re-raised, but the results computed so
far are NOT attached to the audit row: `consolidation_results` is only
assigned on the success path, so the row carries no results blob. -/
theorem consolidate_failure_drops_results_blob :
    (consolidate_daily_data 100 200 [] [] [] (Except.ok 1)
        (Except.ok "metrics-blob") (Except.error "insight step failed")
        (Except.ok "cleaned") emptyStore).1 =
      Except.error "insight step failed" ∧
    (consolidate_daily_data 100 200 [] [] [] (Except.ok 1)
        (Except.ok "metrics-blob") (Except.error "insight step failed")
        (Except.ok "cleaned") emptyStore).2.1.status = "failed" ∧
    (consolidate_daily_data 100 200 [] [] [] (Except.ok 1)
        (Except.ok "metrics-blob") (Except.error "insight step failed")
        (Except.ok "cleaned") emptyStore).2.1.error_message =
      some "insight step failed" ∧
    (consolidate_daily_data 100 200 [] [] [] (Except.ok 1)
        (Except.ok "metrics-blob") (Except.error "insight step failed")
        (Except.ok "cleaned") emptyStore).2.1.consolidation_results =
      none := by
  exact ⟨rfl, rfl, rfl, rfl⟩

/-- C9 amended: a failure in any maintenance step marks the audit row
`failed` with the captured error and re-raises the failure to the caller;
the audit fields already written before the failing step (the pattern count,
the quality score, the insight count) keep their values, but the
`consolidation_results` blob is only attached on success, so step outputs
computed before the failure are not attached to the audit row.  When every
step succeeds the row is `completed` with timing and the results blob. -/
theorem consolidate_marks_failed_and_reraises (startNow endNow : Nat)
    (cp pp ap : List PatternR)
    (aq : Except String ℚ) (ga : Except String String)
    (di : Except String (List String)) (cl : Except String String)
    (st : GraphStore) :
    (∀ e, aq = Except.error e →
      (consolidate_daily_data startNow endNow cp pp ap aq ga di cl st).1 =
          Except.error e ∧
        (consolidate_daily_data startNow endNow cp pp ap aq ga di cl
          st).2.1.status = "failed" ∧
        (consolidate_daily_data startNow endNow cp pp ap aq ga di cl
          st).2.1.error_message = some e ∧
        (consolidate_daily_data startNow endNow cp pp ap aq ga di cl
          st).2.1.patterns_detected =
            (detect_patterns startNow 1 cp pp ap st).1.length ∧
        (consolidate_daily_data startNow endNow cp pp ap aq ga di cl
          st).2.1.consolidation_results = none) ∧
    (∀ q e, aq = Except.ok q → ga = Except.error e →
      (consolidate_daily_data startNow endNow cp pp ap aq ga di cl st).1 =
          Except.error e ∧
        (consolidate_daily_data startNow endNow cp pp ap aq ga di cl
          st).2.1.status = "failed" ∧
        (consolidate_daily_data startNow endNow cp pp ap aq ga di cl
          st).2.1.error_message = some e ∧
        (consolidate_daily_data startNow endNow cp pp ap aq ga di cl
          st).2.1.data_quality_score = some q ∧
        (consolidate_daily_data startNow endNow cp pp ap aq ga di cl
          st).2.1.consolidation_results = none) ∧
    (∀ q g e, aq = Except.ok q → ga = Except.ok g → di = Except.error e →
      (consolidate_daily_data startNow endNow cp pp ap aq ga di cl st).1 =
          Except.error e ∧
        (consolidate_daily_data startNow endNow cp pp ap aq ga di cl
          st).2.1.status = "failed" ∧
        (consolidate_daily_data startNow endNow cp pp ap aq ga di cl
          st).2.1.error_message = some e ∧
        (consolidate_daily_data startNow endNow cp pp ap aq ga di cl
          st).2.1.data_quality_score = some q ∧
        (consolidate_daily_data startNow endNow cp pp ap aq ga di cl
          st).2.1.consolidation_results = none) ∧
    (∀ q g ins e, aq = Except.ok q → ga = Except.ok g → di = Except.ok ins →
        cl = Except.error e →
      (consolidate_daily_data startNow endNow cp pp ap aq ga di cl st).1 =
          Except.error e ∧
        (consolidate_daily_data startNow endNow cp pp ap aq ga di cl
          st).2.1.status = "failed" ∧
        (consolidate_daily_data startNow endNow cp pp ap aq ga di cl
          st).2.1.error_message = some e ∧
        (consolidate_daily_data startNow endNow cp pp ap aq ga di cl
          st).2.1.insights_generated = ins.length ∧
        (consolidate_daily_data startNow endNow cp pp ap aq ga di cl
          st).2.1.consolidation_results = none) ∧
    (∀ q g ins c2, aq = Except.ok q → ga = Except.ok g →
        di = Except.ok ins → cl = Except.ok c2 →
      (consolidate_daily_data startNow endNow cp pp ap aq ga di cl st).1 =
          Except.ok ⟨some g, some ins, some c2⟩ ∧
        (consolidate_daily_data startNow endNow cp pp ap aq ga di cl
          st).2.1.status = "completed" ∧
        (consolidate_daily_data startNow endNow cp pp ap aq ga di cl
          st).2.1.completed_at = some endNow ∧
        (consolidate_daily_data startNow endNow cp pp ap aq ga di cl
          st).2.1.processing_time_seconds =
            some ((endNow : ℤ) - (startNow : ℤ)) ∧
        (consolidate_daily_data startNow endNow cp pp ap aq ga di cl
          st).2.1.consolidation_results =
            some ⟨some g, some ins, some c2⟩) := by
  refine ⟨?_, ?_, ?_, ?_, ?_⟩
  · intro e h1
    subst h1
    exact ⟨rfl, rfl, rfl, rfl, rfl⟩
  · intro q e h1 h2
    subst h1
    subst h2
    exact ⟨rfl, rfl, rfl, rfl, rfl⟩
  · intro q g e h1 h2 h3
    subst h1
    subst h2
    subst h3
    exact ⟨rfl, rfl, rfl, rfl, rfl⟩
  · intro q g ins e h1 h2 h3 h4
    subst h1
    subst h2
    subst h3
    subst h4
    exact ⟨rfl, rfl, rfl, rfl, rfl⟩
  · intro q g ins c2 h1 h2 h3 h4
    subst h1
    subst h2
    subst h3
    subst h4
    exact ⟨rfl, rfl, rfl, rfl, rfl⟩

theorem consolidate_marks_failed_and_reraises_witness :
    ((consolidate_daily_data 100 200 [] [] [] (Except.ok 1)
        (Except.error "analytics failed") (Except.ok ["i1"]) (Except.ok "c")
        emptyStore).1 = Except.error "analytics failed" ∧
      (consolidate_daily_data 100 200 [] [] [] (Except.ok 1)
        (Except.error "analytics failed") (Except.ok ["i1"]) (Except.ok "c")
        emptyStore).2.1.status = "failed" ∧
      (consolidate_daily_data 100 200 [] [] [] (Except.ok 1)
        (Except.error "analytics failed") (Except.ok ["i1"]) (Except.ok "c")
        emptyStore).2.1.error_message = some "analytics failed" ∧
      (consolidate_daily_data 100 200 [] [] [] (Except.ok 1)
        (Except.error "analytics failed") (Except.ok ["i1"]) (Except.ok "c")
        emptyStore).2.1.data_quality_score = some 1 ∧
      (consolidate_daily_data 100 200 [] [] [] (Except.ok 1)
        (Except.error "analytics failed") (Except.ok ["i1"]) (Except.ok "c")
        emptyStore).2.1.consolidation_results = none) ∧
    ((consolidate_daily_data 100 200 [] [] [] (Except.ok 1)
        (Except.ok "g") (Except.ok ["i1"]) (Except.ok "c")
        emptyStore).1 = Except.ok ⟨some "g", some ["i1"], some "c"⟩ ∧
      (consolidate_daily_data 100 200 [] [] [] (Except.ok 1)
        (Except.ok "g") (Except.ok ["i1"]) (Except.ok "c")
        emptyStore).2.1.status = "completed" ∧
      (consolidate_daily_data 100 200 [] [] [] (Except.ok 1)
        (Except.ok "g") (Except.ok ["i1"]) (Except.ok "c")
        emptyStore).2.1.completed_at = some 200 ∧
      (consolidate_daily_data 100 200 [] [] [] (Except.ok 1)
        (Except.ok "g") (Except.ok ["i1"]) (Except.ok "c")
        emptyStore).2.1.processing_time_seconds =
          some ((200 : ℤ) - (100 : ℤ)) ∧
      (consolidate_daily_data 100 200 [] [] [] (Except.ok 1)
        (Except.ok "g") (Except.ok ["i1"]) (Except.ok "c")
        emptyStore).2.1.consolidation_results =
          some ⟨some "g", some ["i1"], some "c"⟩) :=
  ⟨(consolidate_marks_failed_and_reraises 100 200 [] [] [] (Except.ok 1)
      (Except.error "analytics failed") (Except.ok ["i1"]) (Except.ok "c")
      emptyStore).2.1 1 "analytics failed" rfl rfl,
   (consolidate_marks_failed_and_reraises 100 200 [] [] [] (Except.ok 1)
      (Except.ok "g") (Except.ok ["i1"]) (Except.ok "c")
      emptyStore).2.2.2.2 1 "g" ["i1"] "c" rfl rfl rfl rfl⟩
